import Mathlib

/-!
Shallow embedding of the LC-3 virtual machine (src/main.c, src/utils.c).

Machine words are modelled as `Nat` with explicit `% 65536` wherever the C
code truncates through a `uint16_t` variable, parameter or array element.
The register file is a function `Nat → Nat` over the indices 0..9
(R0..R7, PC = 8, COND = 9), matching the C array `reg[R_COUNT]`; memory is a
function `Nat → Nat` over addresses 0..65535.  The external `TerminalHost`
(check_key / getchar of utils.c) is modelled as two streams of answers:
one of `check_key` results, one of `getchar` bytes.  Console output is
returned as a list of byte values.  The `abort()` on an unimplemented
opcode is modelled by `Option`: `none` is the aborted execution.
-/

namespace LC3

def MEMORY_MAX : Nat := 65536

/-- Condition flag P (positive), `FL_POS = 1 << 0` in src/main.c. -/
def FL_POS : Nat := 1

/-- Condition flag Z (zero), `FL_ZRO = 1 << 1` in src/main.c. -/
def FL_ZRO : Nat := 2

/-- Condition flag N (negative), `FL_NEG = 1 << 2` in src/main.c. -/
def FL_NEG : Nat := 4

def R_R0 : Nat := 0
def R_R7 : Nat := 7
def R_PC : Nat := 8
def R_COND : Nat := 9

/-- Keyboard status register address. -/
def MR_KBSR : Nat := 0xFE00

/-- Keyboard data register address. -/
def MR_KBDR : Nat := 0xFE02

/-- `swap16` of src/utils.c: `(x << 8) | (x >> 8)` on a `uint16_t` argument,
truncated back to 16 bits by the `uint16_t` return type. -/
def swap16 (x0 : Nat) : Nat :=
  let x := x0 % 65536
  ((x <<< 8) ||| (x >>> 8)) % 65536

/-- `sign_extend` of src/utils.c.  The parameter is `uint16_t` (hence the
entry truncation); the OR with `0xFFFF << bit_count` is truncated back to
16 bits by the `uint16_t` variable `x`. -/
def sign_extend (x0 : Nat) (bit_count : Nat) : Nat :=
  let x := x0 % 65536
  if (x >>> (bit_count - 1)) &&& 1 = 1 then (x ||| (0xFFFF <<< bit_count)) % 65536
  else x

/-- The machine state: the register file `reg[R_COUNT]` (indices 0..9) and
the memory array `memory[MEMORY_MAX]` of src/main.c. -/
structure Machine where
  reg : Nat → Nat
  memory : Nat → Nat

/-- The external TerminalHost: the stream of future `check_key` answers and
the stream of future `getchar` bytes. -/
structure Terminal where
  keyReady : List Bool
  inBytes : List Nat

/-- Write register `r` (a C `uint16_t` array element, hence `% 65536`). -/
def setReg (s : Machine) (r v : Nat) : Machine :=
  { s with reg := fun i => if i = r then v % 65536 else s.reg i }

/-- `check_key` of src/utils.c: returns the next poll answer and the
advanced host. -/
def check_key (t : Terminal) : Bool × Terminal :=
  (t.keyReady.headD false, { t with keyReady := t.keyReady.tail })

/-- `getchar`: returns the next input byte and the advanced host. -/
def getchar (t : Terminal) : Nat × Terminal :=
  (t.inBytes.headD 0, { t with inBytes := t.inBytes.tail })

/-- `mem_write` of src/main.c: `memory[address] = val` with `uint16_t`
parameters. -/
def mem_write (s : Machine) (address val : Nat) : Machine :=
  { s with memory := fun a => if a = address % 65536 then val % 65536 else s.memory a }

/-- `mem_read` of src/main.c: a read of `MR_KBSR` polls the host and
rewrites `memory[MR_KBSR]` / `memory[MR_KBDR]` first; every read returns
`memory[address]` of the (possibly updated) memory. -/
def mem_read (s : Machine) (t : Terminal) (address0 : Nat) : Nat × Machine × Terminal :=
  let address := address0 % 65536
  if address = MR_KBSR then
    let k := check_key t
    if k.1 then
      let c := getchar k.2
      let s1 := mem_write (mem_write s MR_KBSR 0x8000) MR_KBDR c.1
      (s1.memory address, s1, c.2)
    else
      let s1 := mem_write s MR_KBSR 0
      (s1.memory address, s1, k.2)
  else (s.memory address, s, t)

/-- `update_flags` of src/main.c. -/
def update_flags (s : Machine) (r : Nat) : Machine :=
  if s.reg r = 0 then setReg s R_COND FL_ZRO
  else if s.reg r >>> 15 ≠ 0 then setReg s R_COND FL_NEG
  else setReg s R_COND FL_POS

/-- The `TRAP_PUTS` loop of src/main.c: walk words from address `a`,
emitting the low byte of each word (the `(char)` cast) until a zero word.
The fuel bounds the pointer walk to the memory array; the C loop runs the
pointer past the array (undefined behavior) if no zero word occurs. -/
def putsLoop (mem : Nat → Nat) : Nat → Nat → List Nat
  | _, 0 => []
  | a, fuel + 1 =>
    if mem a = 0 then [] else (mem a % 256) :: putsLoop mem (a + 1) fuel

/-- The `TRAP_PUTSP` loop of src/main.c: for each nonzero word emit
`char1 = (*c) & 0xFF` and then, if nonzero, `char2 = (*c) >> 8`
(both truncated to a byte by the `char` variables). -/
def putspLoop (mem : Nat → Nat) : Nat → Nat → List Nat
  | _, 0 => []
  | a, fuel + 1 =>
    if mem a = 0 then []
    else (mem a % 256) ::
      ((if (mem a >>> 8) % 256 ≠ 0 then [(mem a >>> 8) % 256] else []) ++
        putspLoop mem (a + 1) fuel)

/-- The bytes printed by the `TRAP_IN` prompt `printf("Enter a character: ")`. -/
def promptBytes : List Nat := "Enter a character: ".toList.map Char.toNat

/-- The bytes printed by `puts("HALT")` (puts appends a newline). -/
def haltBytes : List Nat := "HALT".toList.map Char.toNat ++ [10]

/-- The decode–execute phase of the main loop of src/main.c, acting on the
state after the fetch already incremented PC.  Returns
`some (state, host, output bytes, still running)`, or `none` for the
`abort()` on OP_RES / OP_RTI / unlisted opcodes. -/
def execute (instr : Nat) (s : Machine) (t : Terminal) :
    Option (Machine × Terminal × List Nat × Bool) :=
  match instr >>> 12 with
  | 1 =>
    -- OP_ADD
    let desReg := (instr >>> 9) &&& 7
    let SR1 := (instr >>> 6) &&& 7
    let imm_mode := (instr >>> 5) &&& 1
    let v := s.reg SR1 +
      (if imm_mode = 1 then sign_extend (instr &&& 31) 5 else s.reg (instr &&& 7))
    some (update_flags (setReg s desReg v) desReg, t, [], true)
  | 5 =>
    -- OP_AND
    let desReg := (instr >>> 9) &&& 7
    let SR1 := (instr >>> 6) &&& 7
    let imm_mode := (instr >>> 5) &&& 1
    let v := s.reg SR1 &&&
      (if imm_mode = 1 then sign_extend (instr &&& 31) 5 else s.reg (instr &&& 7))
    some (update_flags (setReg s desReg v) desReg, t, [], true)
  | 9 =>
    -- OP_NOT: `~reg[SR1]` truncated to uint16_t is `65535 - reg[SR1]`
    let desReg := (instr >>> 9) &&& 7
    let SR1 := (instr >>> 6) &&& 7
    some (update_flags (setReg s desReg (65535 - s.reg SR1 % 65536)) desReg, t, [], true)
  | 0 =>
    -- OP_BR
    if ((instr >>> 9) &&& 7) &&& s.reg R_COND ≠ 0 then
      some (setReg s R_PC (s.reg R_PC + sign_extend (instr &&& 511) 9), t, [], true)
    else
      some (s, t, [], true)
  | 12 =>
    -- OP_JMP
    some (setReg s R_PC (s.reg ((instr >>> 6) &&& 7)), t, [], true)
  | 4 =>
    -- OP_JSR: R7 is written first, then the new PC is computed
    if (instr >>> 11) &&& 1 = 1 then
      some (setReg (setReg s R_R7 (s.reg R_PC)) R_PC
        ((setReg s R_R7 (s.reg R_PC)).reg R_PC + sign_extend (instr &&& 2047) 11), t, [], true)
    else
      some (setReg (setReg s R_R7 (s.reg R_PC)) R_PC
        ((setReg s R_R7 (s.reg R_PC)).reg ((instr >>> 6) &&& 7)), t, [], true)
  | 2 =>
    -- OP_LD
    let desReg := (instr >>> 9) &&& 7
    let r := mem_read s t (s.reg R_PC + sign_extend (instr &&& 511) 9)
    some (update_flags (setReg r.2.1 desReg r.1) desReg, r.2.2, [], true)
  | 10 =>
    -- OP_LDI
    let DR := (instr >>> 9) &&& 7
    let r1 := mem_read s t (s.reg R_PC + sign_extend (instr &&& 511) 9)
    let r2 := mem_read r1.2.1 r1.2.2 r1.1
    some (update_flags (setReg r2.2.1 DR r2.1) DR, r2.2.2, [], true)
  | 6 =>
    -- OP_LDR
    let DR := (instr >>> 9) &&& 7
    let r := mem_read s t (s.reg ((instr >>> 6) &&& 7) + sign_extend (instr &&& 63) 6)
    some (update_flags (setReg r.2.1 DR r.1) DR, r.2.2, [], true)
  | 14 =>
    -- OP_LEA
    let DR := (instr >>> 9) &&& 7
    some (update_flags (setReg s DR (s.reg R_PC + sign_extend (instr &&& 511) 9)) DR, t, [], true)
  | 3 =>
    -- OP_ST
    some (mem_write s (s.reg R_PC + sign_extend (instr &&& 511) 9)
      (s.reg ((instr >>> 9) &&& 7)), t, [], true)
  | 11 =>
    -- OP_STI
    let r := mem_read s t (s.reg R_PC + sign_extend (instr &&& 511) 9)
    some (mem_write r.2.1 r.1 (r.2.1.reg ((instr >>> 9) &&& 7)), r.2.2, [], true)
  | 7 =>
    -- OP_STR
    some (mem_write s (s.reg ((instr >>> 6) &&& 7) + sign_extend (instr &&& 63) 6)
      (s.reg ((instr >>> 9) &&& 7)), t, [], true)
  | 15 =>
    -- OP_TRAP: R7 receives the incremented PC, then dispatch on trapvect8
    let s1 := setReg s R_R7 (s.reg R_PC)
    match instr &&& 255 with
    | 0x20 =>
      -- TRAP_GETC
      let c := getchar t
      some (update_flags (setReg s1 R_R0 c.1) R_R0, c.2, [], true)
    | 0x21 =>
      -- TRAP_OUT: putc((char)reg[R_R0])
      some (s1, t, [s1.reg R_R0 % 256], true)
    | 0x22 =>
      -- TRAP_PUTS: walks the memory array directly (not through mem_read)
      some (s1, t, putsLoop s1.memory (s1.reg R_R0 % 65536) (MEMORY_MAX - s1.reg R_R0 % 65536), true)
    | 0x23 =>
      -- TRAP_IN: prompt, read a byte into a (signed) char, echo it, store
      -- it in R0 through the char-to-uint16_t sign extension
      let c := getchar t
      let cb := c.1 % 256
      some (update_flags (setReg s1 R_R0 (if cb < 128 then cb else 0xFF00 + cb)) R_R0,
        c.2, promptBytes ++ [cb], true)
    | 0x24 =>
      -- TRAP_PUTSP: walks the memory array directly (not through mem_read)
      some (s1, t, putspLoop s1.memory (s1.reg R_R0 % 65536) (MEMORY_MAX - s1.reg R_R0 % 65536), true)
    | 0x25 =>
      -- TRAP_HALT
      some (s1, t, haltBytes, false)
    | _ =>
      -- unrecognized trap vector: the switch has no default case
      some (s1, t, [], true)
  | _ =>
    -- OP_RES, OP_RTI, default: abort()
    none

/-- One iteration of the main loop of src/main.c:
`instr = mem_read(reg[R_PC]++)` followed by the opcode dispatch. -/
def step (s : Machine) (t : Terminal) :
    Option (Machine × Terminal × List Nat × Bool) :=
  let pc := s.reg R_PC
  let f := mem_read s t pc
  execute f.1 (setReg f.2.1 R_PC (pc + 1)) f.2.2

/-- The machine at the top of the main loop of src/main.c: registers are
zero-initialized globals, then `reg[R_COND] = FL_ZRO` and
`reg[R_PC] = PC_START`; memory holds whatever the image loads produced. -/
def initialMachine (mem : Nat → Nat) : Machine :=
  { reg := fun i => if i = R_PC then 0x3000 else if i = R_COND then FL_ZRO else 0,
    memory := mem }

/-- States reachable from a fresh machine by iterating the main loop, with
the TerminalHost free to answer anything at every step. -/
inductive Reachable : Machine → Prop
  | init (mem : Nat → Nat) : Reachable (initialMachine mem)
  | next (s : Machine) (t : Terminal) (s' : Machine) (t' : Terminal)
      (o : List Nat) (b : Bool) :
      Reachable s → step s t = some (s', t', o, b) → Reachable s'

/-- `fread` into a `uint16_t` array on a little-endian host: successive
byte pairs become words low-byte-first; a trailing odd byte does not form
a counted element. -/
def bytesToWords : List Nat → List Nat
  | b0 :: b1 :: rest => (b0 % 256 + (b1 % 256) * 256) :: bytesToWords rest
  | _ => []

/-- Store the words `ws` at consecutive addresses starting at `a`
(each a `uint16_t` array element). -/
def writeWords : (Nat → Nat) → Nat → List Nat → Nat → Nat
  | mem, _, [] => mem
  | mem, a, w :: ws => writeWords (fun i => if i = a then w % 65536 else mem i) (a + 1) ws

/-- `read_image_file` of src/main.c on the byte contents of the file.
The first two bytes form the origin (fread then swap16); then at most
`max_read = (uint16_t)(MEMORY_MAX - origin)` words are read and each is
byte-swapped in place.  Reading the words and then swapping them in place
is modelled as writing the swapped words.  A file shorter than two bytes
leaves `origin` indeterminate in the C code (fread's result is unchecked);
such files are modelled as loading nothing. -/
def read_image_file (bytes : List Nat) (mem : Nat → Nat) : Nat → Nat :=
  match bytes with
  | b0 :: b1 :: body =>
    let origin := swap16 (b0 % 256 + (b1 % 256) * 256)
    let max_read := (MEMORY_MAX - origin) % 65536
    writeWords mem origin (((bytesToWords body).take max_read).map swap16)
  | _ => mem

/-- The condition-register invariant: COND holds exactly one of the three
flag values POS, ZRO, NEG. -/
def CondOK (s : Machine) : Prop :=
  s.reg R_COND = FL_POS ∨ s.reg R_COND = FL_ZRO ∨ s.reg R_COND = FL_NEG

/-- The bytes the spec says PUTSP emits for one nonzero word: its low
byte, then, if nonzero, its high byte.  Stated from the spec's words, to
be compared with the source's `putspLoop`. -/
def putspWordBytes (w : Nat) : List Nat :=
  (w % 256) :: (if (w >>> 8) % 256 ≠ 0 then [(w >>> 8) % 256] else [])

/-- A TerminalHost with no pending input. -/
def t0 : Terminal := ⟨[], []⟩

/-- The all-zero machine. -/
def zeroMachine : Machine := ⟨fun _ => 0, fun _ => 0⟩

/-- Memory holding `ADD R1, R1, #5` (0x1265) at 0x3000. -/
def memAdd5 : Nat → Nat := fun a => if a = 0x3000 then 0x1265 else 0

/-- Memory holding `ADD R1, R1, #-1` (0x127F) at 0x3000. -/
def memAddm1 : Nat → Nat := fun a => if a = 0x3000 then 0x127F else 0

/-- A machine about to run PUTSP on the word string 0xFF00, 0x0041, 0x0000
at 0x3000 (R0 = 0x3000). -/
def sPutsp : Machine :=
  { reg := fun i => if i = 0 then 0x3000 else if i = 8 then 0x3005 else 0,
    memory := fun a => if a = 0x3000 then 0xFF00 else if a = 0x3001 then 0x41 else 0 }

/-- A machine about to execute `JSRR R7` (post-fetch PC = 0x3001) whose R7
holds 0x1234. -/
def sJSRR : Machine :=
  { reg := fun i => if i = 8 then 0x3001 else if i = 7 then 0x1234 else 0,
    memory := fun _ => 0 }

/-- A machine whose PC points at a `JSRR R7` instruction in memory. -/
def sFetchJSRR : Machine :=
  { reg := fun i => if i = 8 then 0x3000 else if i = 7 then 0x1234 else 0,
    memory := fun a => if a = 0x3000 then 0x41C0 else 0 }

/-! ## Bitwise helper lemmas -/

theorem lor_two_pow_mul_add {n k b : Nat} (hb : b < 2 ^ n) :
    2 ^ n * k ||| b = 2 ^ n * k + b := by
  apply Nat.eq_of_testBit_eq
  intro j
  rw [Nat.testBit_lor, Nat.testBit_mul_pow_two_add _ hb]
  have h0 : (2 ^ n * k).testBit j = if j < n then false else k.testBit (j - n) := by
    have h := Nat.testBit_mul_pow_two_add k (show (0:Nat) < 2 ^ n from Nat.pos_pow_of_pos n (by norm_num)) j
    simpa using h
  rw [h0]
  rcases lt_or_ge j n with hj | hj
  · simp [hj]
  · have hbj : b.testBit j = false :=
      Nat.testBit_eq_false_of_lt (lt_of_lt_of_le hb (Nat.pow_le_pow_right (by norm_num) hj))
    simp [Nat.not_lt.mpr hj, hbj]

theorem swap16_pair {b0 b1 : Nat} (h0 : b0 < 256) (h1 : b1 < 256) :
    swap16 (b0 + b1 * 256) = b0 * 256 + b1 := by
  have hx : b0 + b1 * 256 < 65536 := by omega
  unfold swap16
  simp only [Nat.mod_eq_of_lt hx, Nat.shiftLeft_eq, Nat.shiftRight_eq_div_pow]
  have hdiv : (b0 + b1 * 256) / 2 ^ 8 = b1 := by norm_num; omega
  have hmul : (b0 + b1 * 256) * 2 ^ 8 = 2 ^ 8 * (b0 + b1 * 256) := by ring
  rw [hdiv, hmul, lor_two_pow_mul_add (by omega)]
  norm_num
  omega

theorem testBit_mod_65536 (y i : Nat) :
    (y % 65536).testBit i = (decide (i < 16) && y.testBit i) := by
  rw [show (65536 : Nat) = 2 ^ 16 by norm_num, Nat.testBit_mod_two_pow]

theorem sign_extend_full (x : Nat) (hx : x < 65536) : sign_extend x 16 = x := by
  unfold sign_extend
  simp only [Nat.mod_eq_of_lt hx]
  split
  · apply Nat.eq_of_testBit_eq
    intro i
    rw [testBit_mod_65536, Nat.testBit_lor]
    rcases lt_or_ge i 16 with hi | hi
    · rw [Nat.testBit_shiftLeft]
      simp [hi, Nat.not_le.mpr hi]
    · have hxb : x.testBit i = false :=
        Nat.testBit_eq_false_of_lt
          (lt_of_lt_of_le hx (by calc (65536:Nat) = 2 ^ 16 := by norm_num
                                   _ ≤ 2 ^ i := Nat.pow_le_pow_right (by norm_num) hi))
      simp [Nat.not_lt.mpr hi, hxb]
  · rfl

theorem sign_extend_low_bits (x w : Nat) (_hw1 : 1 ≤ w) (hw : w ≤ 16) :
    sign_extend x w &&& (1 <<< w - 1) = x &&& (1 <<< w - 1) := by
  have hmask : (1 : Nat) <<< w - 1 = 2 ^ w - 1 := by
    rw [Nat.shiftLeft_eq, Nat.one_mul]
  rw [hmask]
  apply Nat.eq_of_testBit_eq
  intro i
  rw [Nat.testBit_land, Nat.testBit_land, Nat.testBit_two_pow_sub_one]
  rcases lt_or_ge i w with hi | hi
  · have hi16 : i < 16 := lt_of_lt_of_le hi hw
    have hkey : (sign_extend x w).testBit i = x.testBit i := by
      simp only [sign_extend]
      split
      · rw [testBit_mod_65536, Nat.testBit_lor, Nat.testBit_shiftLeft, testBit_mod_65536]
        have hge : ¬ (i ≥ w) := Nat.not_le.mpr hi
        simp [hi16, hge]
      · rw [testBit_mod_65536]
        simp [hi16]
    rw [hkey]
  · simp [Nat.not_lt.mpr hi]

/-- C8: `sign_extend` satisfies its contract: `sign_extend(0b11111, 5) = 0xFFFF`,
`sign_extend(0b01111, 5) = 0x000F`, `sign_extend(x, 16) = x` for every 16-bit
`x`, and for every `x` and valid width `w` the low `w` bits are preserved:
`sign_extend(x, w) & ((1<<w)-1) = x & ((1<<w)-1)`. -/
theorem C8_sign_extend_contract :
    sign_extend 0b11111 5 = 0xFFFF ∧ sign_extend 0b01111 5 = 0x000F ∧
    (∀ x, x < 65536 → sign_extend x 16 = x) ∧
    (∀ x w, 1 ≤ w → w ≤ 16 → sign_extend x w &&& (1 <<< w - 1) = x &&& (1 <<< w - 1)) :=
  ⟨by decide, by decide, sign_extend_full, sign_extend_low_bits⟩

/-- Witness for C8 at concrete inputs. -/
theorem C8_sign_extend_contract_witness :
    ((0x8123 : Nat) < 65536 ∧ sign_extend 0x8123 16 = 0x8123) ∧
    ((1 : Nat) ≤ 5 ∧ (5 : Nat) ≤ 16 ∧
      sign_extend 0x12 5 &&& (1 <<< 5 - 1) = 0x12 &&& (1 <<< 5 - 1)) :=
  ⟨⟨by decide, C8_sign_extend_contract.2.2.1 0x8123 (by decide)⟩,
   ⟨by decide, by decide, C8_sign_extend_contract.2.2.2 0x12 5 (by decide) (by decide)⟩⟩

end LC3

namespace LC3

/-! ## Register-file and memory-bus lemmas -/

theorem setReg_reg_self (s : Machine) (r v : Nat) : (setReg s r v).reg r = v % 65536 := by
  simp [setReg]

theorem setReg_reg_ne (s : Machine) (r v i : Nat) (h : i ≠ r) :
    (setReg s r v).reg i = s.reg i := by
  simp [setReg, h]

theorem setReg_memory (s : Machine) (r v : Nat) : (setReg s r v).memory = s.memory := rfl

theorem mem_write_reg (s : Machine) (a v : Nat) : (mem_write s a v).reg = s.reg := rfl

theorem mem_read_reg (s : Machine) (t : Terminal) (a : Nat) :
    ((mem_read s t a).2.1).reg = s.reg := by
  simp only [mem_read]
  split
  · split <;> rfl
  · rfl

theorem update_flags_reg_ne (s : Machine) (r i : Nat) (h : i ≠ R_COND) :
    (update_flags s r).reg i = s.reg i := by
  unfold update_flags
  split_ifs <;> exact setReg_reg_ne _ _ _ _ h

theorem update_flags_reg_cond (s : Machine) (r : Nat) :
    (update_flags s r).reg R_COND =
      (if s.reg r = 0 then FL_ZRO else if s.reg r >>> 15 ≠ 0 then FL_NEG else FL_POS) := by
  unfold update_flags
  split_ifs <;> simp [setReg_reg_self, FL_ZRO, FL_NEG, FL_POS]

theorem update_flags_memory (s : Machine) (r : Nat) :
    (update_flags s r).memory = s.memory := by
  unfold update_flags
  split_ifs <;> rfl

theorem condOK_update_flags (s : Machine) (r : Nat) : CondOK (update_flags s r) := by
  unfold CondOK
  rw [update_flags_reg_cond]
  split_ifs <;> simp

theorem condOK_setReg_ne {s : Machine} {r v : Nat} (h : r ≠ R_COND) (hc : CondOK s) :
    CondOK (setReg s r v) := by
  unfold CondOK at hc ⊢
  rw [setReg_reg_ne _ _ _ _ (fun hh => h hh.symm)]
  exact hc

theorem condOK_mem_write {s : Machine} {a v : Nat} (hc : CondOK s) :
    CondOK (mem_write s a v) := hc

theorem condOK_mem_read {s : Machine} {t : Terminal} {a : Nat} (hc : CondOK s) :
    CondOK ((mem_read s t a).2.1) := by
  unfold CondOK at hc ⊢
  rw [mem_read_reg]
  exact hc

/-- Every successful instruction dispatch preserves the COND invariant. -/
theorem execute_condOK {instr : Nat} {s : Machine} {t : Terminal} {s' : Machine}
    {t' : Terminal} {o : List Nat} {b : Bool}
    (h : execute instr s t = some (s', t', o, b)) (hc : CondOK s) : CondOK s' := by
  unfold execute at h
  split at h
  all_goals try split at h
  all_goals try exact Option.noConfusion h
  all_goals simp only [Option.some.injEq, Prod.mk.injEq] at h
  all_goals obtain ⟨h1, h2, h3, h4⟩ := h
  all_goals subst h1
  all_goals
    first
      | exact condOK_update_flags _ _
      | exact hc
      | exact condOK_setReg_ne (by decide) hc
      | exact condOK_setReg_ne (by decide) (condOK_setReg_ne (by decide) hc)
      | exact condOK_mem_write hc
      | exact condOK_mem_write (condOK_mem_read hc)

/-- One main-loop iteration preserves the COND invariant. -/
theorem step_condOK {s : Machine} {t : Terminal} {s' : Machine} {t' : Terminal}
    {o : List Nat} {b : Bool}
    (h : step s t = some (s', t', o, b)) (hc : CondOK s) : CondOK s' := by
  unfold step at h
  exact execute_condOK h (condOK_setReg_ne (by decide) (condOK_mem_read hc))

/-- C2: in every machine state reachable from a fresh machine (COND
initialized to ZRO, PC to 0x3000), the COND register holds exactly one of
POS = 0b001, ZRO = 0b010, NEG = 0b100 — never zero, never more than one
bit set — and this is preserved by every instruction the executor
performs. -/
theorem C2_cond_flag_invariant :
    (∀ s : Machine, Reachable s →
      s.reg R_COND = FL_POS ∨ s.reg R_COND = FL_ZRO ∨ s.reg R_COND = FL_NEG) ∧
    (∀ (s : Machine) (t : Terminal) (s' : Machine) (t' : Terminal)
        (o : List Nat) (b : Bool), step s t = some (s', t', o, b) →
      (s.reg R_COND = FL_POS ∨ s.reg R_COND = FL_ZRO ∨ s.reg R_COND = FL_NEG) →
      (s'.reg R_COND = FL_POS ∨ s'.reg R_COND = FL_ZRO ∨ s'.reg R_COND = FL_NEG)) := by
  constructor
  · intro s h
    induction h with
    | init mem => right; left; rfl
    | next s t s' t' o b hr hstep ih => exact step_condOK hstep ih
  · intro s t s' t' o b hstep hc
    exact step_condOK hstep hc

/-- Witness for C2 at the fresh machine with zeroed memory. -/
theorem C2_cond_flag_invariant_witness :
    (initialMachine (fun _ => 0)).reg R_COND = FL_POS ∨
      (initialMachine (fun _ => 0)).reg R_COND = FL_ZRO ∨
      (initialMachine (fun _ => 0)).reg R_COND = FL_NEG :=
  C2_cond_flag_invariant.1 _ (Reachable.init _)

/-- C3: a read of KBSR (0xFE00) with a byte ready rewrites memory[KBSR] to
0x8000 and memory[KBDR] to the byte (zero-extended) before returning
memory[addr]; with no byte ready it rewrites memory[KBSR] to 0; a read of
KBDR (0xFE02) has no side effect and returns what was last stored there. -/
theorem C3_mem_read_keyboard :
    (∀ (s : Machine) (kr : List Bool) (ib : List Nat) (c : Nat), c < 256 →
      ∃ s', mem_read s (Terminal.mk (true :: kr) (c :: ib)) MR_KBSR =
          (0x8000, s', Terminal.mk kr ib) ∧
        s'.memory MR_KBSR = 0x8000 ∧ s'.memory MR_KBDR = c ∧
        (∀ a, a ≠ MR_KBSR → a ≠ MR_KBDR → s'.memory a = s.memory a) ∧
        s'.reg = s.reg) ∧
    (∀ (s : Machine) (t : Terminal), t.keyReady.headD false = false →
      ∃ s', mem_read s t MR_KBSR = (0, s', Terminal.mk t.keyReady.tail t.inBytes) ∧
        s'.memory MR_KBSR = 0 ∧
        (∀ a, a ≠ MR_KBSR → s'.memory a = s.memory a) ∧ s'.reg = s.reg) ∧
    (∀ (s : Machine) (t : Terminal), mem_read s t MR_KBDR = (s.memory MR_KBDR, s, t)) := by
  refine ⟨?_, ?_, ?_⟩
  · intro s kr ib c hlt
    refine ⟨mem_write (mem_write s MR_KBSR 0x8000) MR_KBDR c, ?_, ?_, ?_, ?_, rfl⟩
    · simp [mem_read, check_key, getchar, mem_write, MR_KBSR, MR_KBDR]
    · simp [mem_write, MR_KBSR, MR_KBDR]
    · simp [mem_write, MR_KBSR, MR_KBDR, Nat.mod_eq_of_lt (show c < 65536 by omega)]
    · intro a h1 h2
      simp [mem_write, MR_KBSR, MR_KBDR] at h1 h2 ⊢
      simp [h1, h2]
  · intro s t hk
    simp only [List.headD_eq_head?_getD] at hk
    refine ⟨mem_write s MR_KBSR 0, ?_, ?_, ?_, rfl⟩
    · simp [mem_read, check_key, mem_write, MR_KBSR, hk]
    · simp [mem_write, MR_KBSR]
    · intro a h1
      simp [mem_write, MR_KBSR] at h1 ⊢
      simp [h1]
  · intro s t
    simp [mem_read, MR_KBSR, MR_KBDR]

/-- Witness for C3: a ready byte 0x61 is latched into the keyboard
registers of the all-zero machine. -/
theorem C3_mem_read_keyboard_witness :
    (97 : Nat) < 256 ∧
    ∃ s', mem_read zeroMachine (Terminal.mk (true :: []) (97 :: [])) MR_KBSR =
        (0x8000, s', Terminal.mk [] []) ∧
      s'.memory MR_KBSR = 0x8000 ∧ s'.memory MR_KBDR = 97 ∧
      (∀ a, a ≠ MR_KBSR → a ≠ MR_KBDR → s'.memory a = zeroMachine.memory a) ∧
      s'.reg = zeroMachine.reg :=
  ⟨by decide, C3_mem_read_keyboard.1 zeroMachine [] [] 97 (by decide)⟩

/-- C9: a TRAP whose vector is outside 0x20..0x25 is silently ignored:
the only state change is the R7 write performed by the TRAP instruction
itself, no memory word changes, no output is produced, and the loop keeps
running. -/
theorem C9_unknown_trap_ignored :
    ∀ (instr : Nat) (s : Machine) (t : Terminal), instr >>> 12 = 15 →
      instr &&& 255 ≠ 0x20 → instr &&& 255 ≠ 0x21 → instr &&& 255 ≠ 0x22 →
      instr &&& 255 ≠ 0x23 → instr &&& 255 ≠ 0x24 → instr &&& 255 ≠ 0x25 →
      execute instr s t = some (setReg s R_R7 (s.reg R_PC), t, [], true) ∧
      (∀ i, i ≠ R_R7 → (setReg s R_R7 (s.reg R_PC)).reg i = s.reg i) ∧
      (setReg s R_R7 (s.reg R_PC)).memory = s.memory := by
  intro instr s t h h0 h1 h2 h3 h4 h5
  refine ⟨?_, fun i hi => setReg_reg_ne _ _ _ _ hi, rfl⟩
  simp [execute, h, h0, h1, h2, h3, h4, h5]

/-- Witness for C9 at trap vector 0x26. -/
theorem C9_unknown_trap_ignored_witness :
    execute 0xF026 zeroMachine t0 =
      some (setReg zeroMachine R_R7 (zeroMachine.reg R_PC), t0, [], true) :=
  (C9_unknown_trap_ignored 0xF026 zeroMachine t0 (by decide) (by decide) (by decide)
    (by decide) (by decide) (by decide) (by decide)).1

/-- C10: the output traps OUT, PUTS and PUTSP change no register beyond
the R7 write of TRAP itself, no memory word (in particular neither
memory[KBSR] nor memory[KBDR]: the strings are read straight from the
memory array, not through mem_read), and do not touch the TerminalHost,
so no keyboard poll happens even for a string spanning 0xFE00. -/
theorem C10_output_traps_frame :
    ∀ (instr : Nat) (s : Machine) (t : Terminal), instr >>> 12 = 15 →
      (instr &&& 255 = 0x21 ∨ instr &&& 255 = 0x22 ∨ instr &&& 255 = 0x24) →
      ∃ out, execute instr s t = some (setReg s R_R7 (s.reg R_PC), t, out, true) ∧
        (setReg s R_R7 (s.reg R_PC)).memory MR_KBSR = s.memory MR_KBSR ∧
        (setReg s R_R7 (s.reg R_PC)).memory MR_KBDR = s.memory MR_KBDR ∧
        (∀ i, i ≠ R_R7 → (setReg s R_R7 (s.reg R_PC)).reg i = s.reg i) := by
  intro instr s t h hv
  rcases hv with hv | hv | hv
  · exact ⟨[(setReg s R_R7 (s.reg R_PC)).reg R_R0 % 256],
      by simp [execute, h, hv], rfl, rfl, fun i hi => setReg_reg_ne _ _ _ _ hi⟩
  · exact ⟨putsLoop (setReg s R_R7 (s.reg R_PC)).memory
        ((setReg s R_R7 (s.reg R_PC)).reg R_R0 % 65536)
        (MEMORY_MAX - (setReg s R_R7 (s.reg R_PC)).reg R_R0 % 65536),
      by simp [execute, h, hv], rfl, rfl, fun i hi => setReg_reg_ne _ _ _ _ hi⟩
  · exact ⟨putspLoop (setReg s R_R7 (s.reg R_PC)).memory
        ((setReg s R_R7 (s.reg R_PC)).reg R_R0 % 65536)
        (MEMORY_MAX - (setReg s R_R7 (s.reg R_PC)).reg R_R0 % 65536),
      by simp [execute, h, hv], rfl, rfl, fun i hi => setReg_reg_ne _ _ _ _ hi⟩

/-- Witness for C10: PUTSP on a string spanning KBSR (R0 = 0xFE00 in
sPutsp-like layout is not even needed: any machine works; here the
all-zero machine) leaves the keyboard registers untouched. -/
theorem C10_output_traps_frame_witness :
    ∃ out, execute 0xF024 zeroMachine t0 =
        some (setReg zeroMachine R_R7 (zeroMachine.reg R_PC), t0, out, true) ∧
      (setReg zeroMachine R_R7 (zeroMachine.reg R_PC)).memory MR_KBSR =
        zeroMachine.memory MR_KBSR ∧
      (setReg zeroMachine R_R7 (zeroMachine.reg R_PC)).memory MR_KBDR =
        zeroMachine.memory MR_KBDR ∧
      (∀ i, i ≠ R_R7 →
        (setReg zeroMachine R_R7 (zeroMachine.reg R_PC)).reg i = zeroMachine.reg i) :=
  C10_output_traps_frame 0xF024 zeroMachine t0 (by decide) (Or.inr (Or.inr (by decide)))

end LC3

namespace LC3

/-- JSR, JSRR and every TRAP branch write the incremented PC into R7. -/
theorem execute_R7 {instr : Nat} {s : Machine} {t : Terminal} {s' : Machine}
    {t' : Terminal} {o : List Nat} {b : Bool}
    (hop : instr >>> 12 = 4 ∨ instr >>> 12 = 15)
    (h : execute instr s t = some (s', t', o, b)) : s'.reg R_R7 = s.reg R_PC % 65536 := by
  rcases hop with hop | hop
  · simp only [execute, hop] at h
    split at h
    all_goals simp only [Option.some.injEq, Prod.mk.injEq] at h
    all_goals obtain ⟨h1, h2, h3, h4⟩ := h
    all_goals subst h1
    all_goals rw [setReg_reg_ne _ _ _ _ (by decide), setReg_reg_self]
  · simp only [execute, hop] at h
    split at h
    all_goals simp only [Option.some.injEq, Prod.mk.injEq] at h
    all_goals obtain ⟨h1, h2, h3, h4⟩ := h
    all_goals subst h1
    all_goals
      first
        | exact setReg_reg_self _ _ _
        | (rw [update_flags_reg_ne _ _ _ (by decide),
               setReg_reg_ne _ _ _ _ (by decide), setReg_reg_self])

/-- C5 (amended): after a JSR, JSRR or TRAP fetched from address A,
register R7 equals A + 1 (mod 2^16), the address of the next instruction;
and since for JSR/JSRR the write to R7 happens before the new PC is
computed, a JSRR through R7 jumps to the NEW contents of R7 — the return
address — not to the old contents. -/
theorem C5_r7_return_address :
    (∀ (s : Machine) (t : Terminal) (s' : Machine) (t' : Terminal)
        (o : List Nat) (b : Bool) (A : Nat), s.reg R_PC = A →
      ((mem_read s t A).1 >>> 12 = 4 ∨ (mem_read s t A).1 >>> 12 = 15) →
      step s t = some (s', t', o, b) → s'.reg R_R7 = (A + 1) % 65536) ∧
    (∀ (instr : Nat) (s : Machine) (t : Terminal), instr >>> 12 = 4 →
      (instr >>> 11) &&& 1 = 0 → (instr >>> 6) &&& 7 = 7 →
      ∃ s', execute instr s t = some (s', t, [], true) ∧
        s'.reg R_PC = s.reg R_PC % 65536 ∧ s'.reg R_R7 = s.reg R_PC % 65536) := by
  constructor
  · intro s t s' t' o b A hA hop hstep
    unfold step at hstep
    subst hA
    have h7 := execute_R7 hop hstep
    rw [setReg_reg_self] at h7
    omega
  · intro instr s t hop h11 hbase
    refine ⟨setReg (setReg s R_R7 (s.reg R_PC)) R_PC
      ((setReg s R_R7 (s.reg R_PC)).reg ((instr >>> 6) &&& 7)), ?_, ?_, ?_⟩
    · simp [execute, hop, h11]
    · rw [hbase, setReg_reg_self, show (7 : Nat) = R_R7 from rfl, setReg_reg_self]
      omega
    · rw [setReg_reg_ne _ _ _ _ (by decide), setReg_reg_self]

/-- Counterexample for C5 as stated: executing `JSRR R7` (0x41C0) from a
state whose R7 holds 0x1234 and whose (incremented) PC is 0x3001 sets
PC to 0x3001 — the new contents of R7 — and NOT to 0x1234, the old
contents, refuting "a JSRR through R7 jumps to the old contents of R7". -/
theorem C5_r7_return_address_counterexample :
    ((execute 0x41C0 sJSRR t0).map fun r => r.1.reg R_PC) = some 0x3001 ∧
    ((execute 0x41C0 sJSRR t0).map fun r => r.1.reg R_PC) ≠ some (sJSRR.reg R_R7) := by
  constructor
  · decide
  · decide

/-- Witness for C5 at a concrete fetch of `JSRR R7` from address 0x3000. -/
theorem C5_r7_return_address_witness :
    sFetchJSRR.reg R_PC = 0x3000 ∧
    ((step sFetchJSRR t0).map fun r => r.1.reg R_R7) = some ((0x3000 + 1) % 65536) := by
  refine ⟨rfl, ?_⟩
  rcases hX : step sFetchJSRR t0 with _ | ⟨s', t', o, b⟩
  · have hs : (step sFetchJSRR t0).isSome = true := rfl
    rw [hX] at hs
    exact Bool.noConfusion hs
  · have h7 := C5_r7_return_address.1 sFetchJSRR t0 s' t' o b 0x3000 rfl (by decide) hX
    simpa using h7

end LC3

namespace LC3

/-- C1: ADD (opcode 0x1) adds R[SR1] and either the sign-extended imm5
(bit 5 set) or R[SR2] (bit 5 clear) into R[DR] modulo 2^16, updates the
flags from the result, and changes nothing else; in particular one step on
0x1265 (`ADD R1, R1, #5`) from R1 = 0, PC = 0x3000 yields R1 = 5,
COND = POS, PC = 0x3001, and one step on 0x127F (`ADD R1, R1, #-1`) from
R1 = 0 yields R1 = 0xFFFF, COND = NEG. -/
theorem C1_add_semantics :
    (∀ (instr : Nat) (s : Machine) (t : Terminal), instr >>> 12 = 1 →
      ∃ s', execute instr s t = some (s', t, [], true) ∧
        s'.reg ((instr >>> 9) &&& 7) =
          (s.reg ((instr >>> 6) &&& 7) +
            (if (instr >>> 5) &&& 1 = 1 then sign_extend (instr &&& 31) 5
             else s.reg (instr &&& 7))) % 65536 ∧
        s'.reg R_COND =
          (if s'.reg ((instr >>> 9) &&& 7) = 0 then FL_ZRO
           else if 32768 ≤ s'.reg ((instr >>> 9) &&& 7) then FL_NEG else FL_POS) ∧
        (∀ i, i ≤ 8 → i ≠ (instr >>> 9) &&& 7 → s'.reg i = s.reg i) ∧
        s'.memory = s.memory) ∧
    ((step (initialMachine memAdd5) t0).map
        (fun r => (r.1.reg 1, r.1.reg R_COND, r.1.reg R_PC, r.2.2.1, r.2.2.2)) =
      some (5, FL_POS, 0x3001, [], true)) ∧
    ((step (initialMachine memAddm1) t0).map
        (fun r => (r.1.reg 1, r.1.reg R_COND)) = some (0xFFFF, FL_NEG)) := by
  refine ⟨?_, by decide, by decide⟩
  intro instr s t hop
  have hdr : (instr >>> 9) &&& 7 ≤ 7 := Nat.and_le_right
  have hdr9 : (instr >>> 9) &&& 7 ≠ R_COND := by unfold R_COND; omega
  refine ⟨update_flags (setReg s ((instr >>> 9) &&& 7)
    (s.reg ((instr >>> 6) &&& 7) +
      (if (instr >>> 5) &&& 1 = 1 then sign_extend (instr &&& 31) 5
       else s.reg (instr &&& 7)))) ((instr >>> 9) &&& 7), ?_, ?_, ?_, ?_, ?_⟩
  · simp [execute, hop]
  · rw [update_flags_reg_ne _ _ _ hdr9, setReg_reg_self]
  · rw [update_flags_reg_cond, update_flags_reg_ne _ _ _ hdr9, setReg_reg_self]
    have hlt : (s.reg ((instr >>> 6) &&& 7) +
        (if (instr >>> 5) &&& 1 = 1 then sign_extend (instr &&& 31) 5
         else s.reg (instr &&& 7))) % 65536 < 65536 := Nat.mod_lt _ (by omega)
    generalize (s.reg ((instr >>> 6) &&& 7) +
        (if (instr >>> 5) &&& 1 = 1 then sign_extend (instr &&& 31) 5
         else s.reg (instr &&& 7))) % 65536 = v at hlt
    simp only [Nat.shiftRight_eq_div_pow]
    split_ifs <;> simp_all <;> omega
  · intro i hi hne
    rw [update_flags_reg_ne _ _ _ (by unfold R_COND; omega), setReg_reg_ne _ _ _ _ hne]
  · rw [update_flags_memory]
    rfl

/-- Witness for C1 at instruction 0x1265 on the all-zero machine. -/
theorem C1_add_semantics_witness :
    (0x1265 : Nat) >>> 12 = 1 ∧
    (∃ s', execute 0x1265 zeroMachine t0 = some (s', t0, [], true) ∧
      s'.reg ((0x1265 >>> 9) &&& 7) =
        (zeroMachine.reg ((0x1265 >>> 6) &&& 7) +
          (if (0x1265 >>> 5) &&& 1 = 1 then sign_extend (0x1265 &&& 31) 5
           else zeroMachine.reg (0x1265 &&& 7))) % 65536 ∧
      s'.reg R_COND =
        (if s'.reg ((0x1265 >>> 9) &&& 7) = 0 then FL_ZRO
         else if 32768 ≤ s'.reg ((0x1265 >>> 9) &&& 7) then FL_NEG else FL_POS) ∧
      (∀ i, i ≤ 8 → i ≠ (0x1265 >>> 9) &&& 7 → s'.reg i = zeroMachine.reg i) ∧
      s'.memory = zeroMachine.memory) :=
  ⟨by decide, C1_add_semantics.1 0x1265 zeroMachine t0 (by decide)⟩

end LC3

namespace LC3

/-- The PUTSP loop, run on a string whose first zero word is at offset
`k`, emits exactly the per-word byte lists of the first `k` words. -/
theorem putspLoop_spec (mem : Nat → Nat) :
    ∀ (k a fuel : Nat), k < fuel → (∀ j, j < k → mem (a + j) ≠ 0) → mem (a + k) = 0 →
      putspLoop mem a fuel =
        (List.range k).flatMap (fun j => putspWordBytes (mem (a + j))) := by
  intro k
  induction k with
  | zero =>
    intro a fuel hf _ h0
    obtain ⟨f, rfl⟩ : ∃ f, fuel = f + 1 := ⟨fuel - 1, by omega⟩
    rw [Nat.add_zero] at h0
    simp [putspLoop, h0]
  | succ k ih =>
    intro a fuel hf hnz h0
    obtain ⟨f, rfl⟩ : ∃ f, fuel = f + 1 := ⟨fuel - 1, by omega⟩
    have ha : mem a ≠ 0 := by
      have h := hnz 0 (by omega)
      simpa using h
    have hrec : putspLoop mem (a + 1) f =
        (List.range k).flatMap (fun j => putspWordBytes (mem (a + 1 + j))) := by
      apply ih
      · omega
      · intro j hj
        have h := hnz (j + 1) (by omega)
        have he : a + (j + 1) = a + 1 + j := by omega
        rw [he] at h
        exact h
      · have he : a + 1 + k = a + (k + 1) := by omega
        rw [he]
        exact h0
    rw [List.range_succ_eq_map, List.flatMap_cons, List.flatMap_map]
    have hfun : (fun j => putspWordBytes (mem (a + Nat.succ j))) =
        (fun j => putspWordBytes (mem (a + 1 + j))) := by
      funext j
      congr 2
      omega
    rw [hfun, ← hrec]
    simp only [putspWordBytes, Nat.add_zero]
    simp only [putspLoop, if_neg ha]
    rw [List.cons_append]

/-- C6 (amended): TRAP PUTSP walks words from R[R0]; each word before the
first zero word contributes its low byte and then, if nonzero, its high
byte; the loop terminates exactly on a word equal to 0.  A word whose low
byte is zero but whose high byte is nonzero does NOT terminate the
string: its zero low byte is emitted, then its nonzero high byte, and the
loop continues with the next word. -/
theorem C6_putsp_semantics :
    (∀ (s : Machine) (t : Terminal) (instr k : Nat), instr >>> 12 = 15 →
      instr &&& 255 = 0x24 →
      s.reg R_R0 % 65536 + k < 65536 →
      (∀ j, j < k → s.memory (s.reg R_R0 % 65536 + j) ≠ 0) →
      s.memory (s.reg R_R0 % 65536 + k) = 0 →
      execute instr s t = some (setReg s R_R7 (s.reg R_PC), t,
        (List.range k).flatMap
          (fun j => putspWordBytes (s.memory (s.reg R_R0 % 65536 + j))), true)) ∧
    (∀ (mem : Nat → Nat) (a fuel : Nat), mem a ≠ 0 → mem a % 256 = 0 →
      (mem a >>> 8) % 256 ≠ 0 →
      putspLoop mem a (fuel + 1) =
        0 :: ((mem a >>> 8) % 256) :: putspLoop mem (a + 1) fuel) := by
  constructor
  · intro s t instr k hop hv hlt hnz h0
    have harm : execute instr s t = some (setReg s R_R7 (s.reg R_PC), t,
        putspLoop (setReg s R_R7 (s.reg R_PC)).memory
          ((setReg s R_R7 (s.reg R_PC)).reg R_R0 % 65536)
          (MEMORY_MAX - (setReg s R_R7 (s.reg R_PC)).reg R_R0 % 65536), true) := by
      simp [execute, hop, hv]
    rw [harm, setReg_memory, setReg_reg_ne _ _ _ _ (by decide),
      putspLoop_spec s.memory k (s.reg R_R0 % 65536)
        (MEMORY_MAX - s.reg R_R0 % 65536) (by unfold MEMORY_MAX at *; omega) hnz h0]
  · intro mem a fuel ha hlow hhigh
    simp only [putspLoop, if_neg ha, hlow, if_pos hhigh]
    rw [List.singleton_append]

/-- Counterexample for C6 as stated: running PUTSP on the word string
0xFF00, 0x0041, 0x0000 emits the bytes 0x00, 0xFF, 0x41 — the 0xFF00 word
(low byte zero, high byte nonzero) does not terminate the string before
its high byte is emitted. -/
theorem C6_putsp_semantics_counterexample :
    ((execute 0xF024 sPutsp t0).map fun r => r.2.2.1) = some [0x00, 0xFF, 0x41] ∧
    ((execute 0xF024 sPutsp t0).map fun r => r.2.2.1) ≠ some [] ∧
    ((execute 0xF024 sPutsp t0).map fun r => r.2.2.1) ≠ some [0x00] := by
  refine ⟨by decide, by decide, by decide⟩

/-- Witness for C6 on the concrete two-word string of sPutsp. -/
theorem C6_putsp_semantics_witness :
    execute 0xF024 sPutsp t0 = some (setReg sPutsp R_R7 (sPutsp.reg R_PC), t0,
      (List.range 2).flatMap
        (fun j => putspWordBytes (sPutsp.memory (sPutsp.reg R_R0 % 65536 + j))), true) :=
  C6_putsp_semantics.1 sPutsp t0 0xF024 2 (by decide) (by decide) (by decide)
    (by decide) (by decide)

end LC3

namespace LC3

/-! ## Image-loader lemmas -/

theorem bytesToWords_length : ∀ l : List Nat, (bytesToWords l).length = l.length / 2
  | [] => rfl
  | [_] => by simp [bytesToWords]
  | _ :: _ :: rest => by
    simp only [bytesToWords, List.length_cons]
    rw [bytesToWords_length rest]
    omega

theorem bytesToWords_getD : ∀ (l : List Nat) (k : Nat), 2 * k + 1 < l.length →
    (bytesToWords l).getD k 0 =
      l.getD (2 * k) 0 % 256 + (l.getD (2 * k + 1) 0 % 256) * 256
  | [], k, h => by simp at h
  | [b], k, h => by simp at h
  | b0 :: b1 :: rest, 0, _ => by simp [bytesToWords]
  | b0 :: b1 :: rest, k + 1, h => by
    have h1 : 2 * (k + 1) = (2 * k + 1) + 1 := by omega
    have h2 : 2 * (k + 1) + 1 = ((2 * k + 1) + 1) + 1 := by omega
    rw [h2, h1]
    simp only [bytesToWords, List.getD_cons_succ]
    exact bytesToWords_getD rest k (by simp at h; omega)

theorem writeWords_eq : ∀ (ws : List Nat) (mem : Nat → Nat) (a i : Nat),
    writeWords mem a ws i =
      if a ≤ i ∧ i < a + ws.length then ws.getD (i - a) 0 % 65536 else mem i
  | [], mem, a, i => by
    simp only [writeWords, List.length_nil, Nat.add_zero]
    rw [if_neg (by omega)]
  | w :: ws, mem, a, i => by
    simp only [writeWords, List.length_cons]
    rw [writeWords_eq ws _ a.succ i]
    by_cases hin : a + 1 ≤ i ∧ i < a + 1 + ws.length
    · rw [if_pos (by omega : a ≤ i ∧ i < a + (ws.length + 1))]
      rw [if_pos (by omega : a.succ ≤ i ∧ i < a.succ + ws.length)]
      have hk : i - a = (i - (a + 1)) + 1 := by omega
      rw [hk, List.getD_cons_succ]
    · rw [if_neg (by omega : ¬(a.succ ≤ i ∧ i < a.succ + ws.length))]
      by_cases hia : i = a
      · subst hia
        rw [if_pos (by omega : i ≤ i ∧ i < i + (ws.length + 1))]
        simp
      · rw [if_neg (by omega : ¬(a ≤ i ∧ i < a + (ws.length + 1)))]
        simp [hia]

theorem read_image_file_eq (b0 b1 : Nat) (body : List Nat) (mem : Nat → Nat) (i : Nat) :
    read_image_file (b0 :: b1 :: body) mem i =
      if swap16 (b0 % 256 + (b1 % 256) * 256) ≤ i ∧
          i < swap16 (b0 % 256 + (b1 % 256) * 256) +
            (((bytesToWords body).take
              ((MEMORY_MAX - swap16 (b0 % 256 + (b1 % 256) * 256)) % 65536)).map swap16).length
      then (((bytesToWords body).take
              ((MEMORY_MAX - swap16 (b0 % 256 + (b1 % 256) * 256)) % 65536)).map swap16).getD
            (i - swap16 (b0 % 256 + (b1 % 256) * 256)) 0 % 65536
      else mem i := by
  simp only [read_image_file]
  exact writeWords_eq _ _ _ _

theorem getD_lt_of_all {body : List Nat} (hb : ∀ x ∈ body, x < 256) :
    ∀ n, n < body.length → body.getD n 0 < 256 := by
  intro n hn
  rw [List.getD_eq_getElem?_getD, List.getElem?_eq_getElem hn]
  exact hb _ (List.getElem_mem hn)

theorem loaded_word (body : List Nat) (hbytes : ∀ x ∈ body, x < 256) (maxr k : Nat)
    (hk : k < min (body.length / 2) maxr) :
    (((bytesToWords body).take maxr).map swap16).getD k 0 =
      (body.getD (2 * k) 0) * 256 + body.getD (2 * k + 1) 0 := by
  have hk2 : k < (bytesToWords body).length := by
    rw [bytesToWords_length]
    omega
  have hlen : 2 * k + 1 < body.length := by omega
  rw [List.getD_eq_getElem?_getD, List.getElem?_map, List.getElem?_take,
    if_pos (by omega : k < maxr), List.getElem?_eq_getElem hk2]
  have hget : (bytesToWords body)[k] = (bytesToWords body).getD k 0 := by
    rw [List.getD_eq_getElem?_getD, List.getElem?_eq_getElem hk2]
    rfl
  simp only [Option.map_some', Option.getD_some]
  rw [hget, bytesToWords_getD body k hlen]
  have hlo : body.getD (2 * k) 0 < 256 := getD_lt_of_all hbytes _ (by omega)
  have hhi : body.getD (2 * k + 1) 0 < 256 := getD_lt_of_all hbytes _ hlen
  rw [Nat.mod_eq_of_lt hlo, Nat.mod_eq_of_lt hhi, swap16_pair hlo hhi]

/-- C4: the loader reads at most 65,536 - O words from the file body
(where O is the big-endian origin word), places word k — the big-endian
byte pair 2k, 2k+1 of the body — at memory[O + k], never writes past the
end of memory (so a file longer than 2 x (65,536 - O) bytes, any origin
including O = 0, is truncated without error), and leaves every other
address untouched. -/
theorem C4_loader_truncation :
    ∀ (b0 b1 : Nat) (body : List Nat) (mem : Nat → Nat), b0 < 256 → b1 < 256 →
      (∀ x ∈ body, x < 256) →
      min (body.length / 2) ((65536 - (b0 * 256 + b1)) % 65536) ≤
        65536 - (b0 * 256 + b1) ∧
      (∀ k, k < min (body.length / 2) ((65536 - (b0 * 256 + b1)) % 65536) →
        b0 * 256 + b1 + k < 65536 ∧
        read_image_file (b0 :: b1 :: body) mem (b0 * 256 + b1 + k) =
          (body.getD (2 * k) 0) * 256 + body.getD (2 * k + 1) 0) ∧
      (∀ i, i < b0 * 256 + b1 ∨
          b0 * 256 + b1 +
            min (body.length / 2) ((65536 - (b0 * 256 + b1)) % 65536) ≤ i →
        read_image_file (b0 :: b1 :: body) mem i = mem i) := by
  intro b0 b1 body mem hb0 hb1 hbytes
  have hO : swap16 (b0 % 256 + (b1 % 256) * 256) = b0 * 256 + b1 := by
    rw [Nat.mod_eq_of_lt hb0, Nat.mod_eq_of_lt hb1, swap16_pair hb0 hb1]
  have hOlt : b0 * 256 + b1 < 65536 := by omega
  have hMM : MEMORY_MAX = 65536 := rfl
  have hlen :
      (((bytesToWords body).take
          ((MEMORY_MAX - swap16 (b0 % 256 + (b1 % 256) * 256)) % 65536)).map swap16).length =
        min (body.length / 2) ((65536 - (b0 * 256 + b1)) % 65536) := by
    rw [List.length_map, List.length_take, bytesToWords_length, hO, hMM]
    omega
  refine ⟨?_, ?_, ?_⟩
  · have h1 : (65536 - (b0 * 256 + b1)) % 65536 ≤ 65536 - (b0 * 256 + b1) :=
      Nat.mod_le _ _
    omega
  · intro k hk
    refine ⟨by omega, ?_⟩
    rw [read_image_file_eq, if_pos (by rw [hlen, hO]; omega)]
    rw [hO, hMM]
    have hsub : b0 * 256 + b1 + k - (b0 * 256 + b1) = k := by omega
    rw [hsub, loaded_word body hbytes _ k hk]
    have hlo : body.getD (2 * k) 0 < 256 :=
      getD_lt_of_all hbytes _ (by omega)
    have hhi : body.getD (2 * k + 1) 0 < 256 :=
      getD_lt_of_all hbytes _ (by omega)
    exact Nat.mod_eq_of_lt (by omega)
  · intro i hi
    rw [read_image_file_eq, if_neg (by rw [hlen, hO]; omega)]


/-- C7: the loader converts big-endian byte pairs to host words — the
file bytes 30 00 12 34 56 78 load 0x1234 at 0x3000 and 0x5678 at 0x3001 —
and leaves every word outside the loaded range unchanged, so loading the
same image twice equals loading it once. -/
theorem C7_loader_endianness_frame :
    (read_image_file [0x30, 0x00, 0x12, 0x34, 0x56, 0x78] (fun _ => 0)) 0x3000 = 0x1234 ∧
    (read_image_file [0x30, 0x00, 0x12, 0x34, 0x56, 0x78] (fun _ => 0)) 0x3001 = 0x5678 ∧
    (∀ (b0 b1 : Nat) (body : List Nat) (mem : Nat → Nat) (i : Nat),
      (i < swap16 (b0 % 256 + (b1 % 256) * 256) ∨
        swap16 (b0 % 256 + (b1 % 256) * 256) +
          min (body.length / 2)
            ((65536 - swap16 (b0 % 256 + (b1 % 256) * 256)) % 65536) ≤ i) →
      read_image_file (b0 :: b1 :: body) mem i = mem i) ∧
    (∀ (bytes : List Nat) (mem : Nat → Nat),
      read_image_file bytes (read_image_file bytes mem) = read_image_file bytes mem) := by
  refine ⟨by decide, by decide, ?_, ?_⟩
  · intro b0 b1 body mem i hi
    have hMM : MEMORY_MAX = 65536 := rfl
    have hlen :
        (((bytesToWords body).take
            ((MEMORY_MAX - swap16 (b0 % 256 + (b1 % 256) * 256)) % 65536)).map swap16).length =
          min (body.length / 2)
            ((65536 - swap16 (b0 % 256 + (b1 % 256) * 256)) % 65536) := by
      rw [List.length_map, List.length_take, bytesToWords_length, hMM]
      omega
    rw [read_image_file_eq, if_neg (by rw [hlen]; omega)]
  · intro bytes mem
    match bytes with
    | [] => rfl
    | [b] => rfl
    | b0 :: b1 :: body =>
      funext i
      rw [read_image_file_eq b0 b1 body (read_image_file (b0 :: b1 :: body) mem) i,
        read_image_file_eq b0 b1 body mem i]
      by_cases h : swap16 (b0 % 256 + (b1 % 256) * 256) ≤ i ∧
          i < swap16 (b0 % 256 + (b1 % 256) * 256) +
            (((bytesToWords body).take
              ((MEMORY_MAX - swap16 (b0 % 256 + (b1 % 256) * 256)) % 65536)).map swap16).length
      · simp only [if_pos h]
      · simp only [if_neg h]


/-- Witness for C4 on the six-byte image with origin 0x3000. -/
theorem C4_loader_truncation_witness :
    (0x30 : Nat) < 256 ∧ (0x00 : Nat) < 256 ∧
    (∀ x ∈ [0x12, 0x34, 0x56, 0x78], (x : Nat) < 256) ∧
    min (([0x12, 0x34, 0x56, 0x78] : List Nat).length / 2)
        ((65536 - (0x30 * 256 + 0x00)) % 65536) ≤ 65536 - (0x30 * 256 + 0x00) :=
  ⟨by decide, by decide, by decide,
    (C4_loader_truncation 0x30 0x00 [0x12, 0x34, 0x56, 0x78] (fun _ => 0)
      (by decide) (by decide) (by decide)).1⟩

/-- Witness for C7: the loaded image leaves 0x2FFF untouched, and loading
it twice equals loading it once. -/
theorem C7_loader_endianness_frame_witness :
    read_image_file (0x30 :: 0x00 :: [0x12, 0x34, 0x56, 0x78]) (fun _ => 0) 0x2FFF = 0 ∧
    read_image_file [0x30, 0x00, 0x12, 0x34, 0x56, 0x78]
        (read_image_file [0x30, 0x00, 0x12, 0x34, 0x56, 0x78] (fun _ => 0)) =
      read_image_file [0x30, 0x00, 0x12, 0x34, 0x56, 0x78] (fun _ => 0) :=
  ⟨C7_loader_endianness_frame.2.2.1 0x30 0x00 [0x12, 0x34, 0x56, 0x78] (fun _ => 0) 0x2FFF
      (by decide),
    C7_loader_endianness_frame.2.2.2 [0x30, 0x00, 0x12, 0x34, 0x56, 0x78] (fun _ => 0)⟩

end LC3
